import Mathlib

/-!
Shallow embedding of the interactive selection and camera-choreography
subsystem of the mouth-explorer application (src/src/App.jsx).

Vectors are modelled over the rationals; the three.js vector operations
used by the code (clone, sub, add, lerpVectors, Box3 center) are
componentwise rational arithmetic.  React state is modelled as an
explicit AppState record advanced by a step function over the
callback-level events of the App component, and a React effect is
modelled as firing exactly when its dependency array changes between
two consecutive states.
-/

/-- Componentwise rational 3-vector, standing in for THREE.Vector3. -/
structure Vec3 where
  x : ℚ
  y : ℚ
  z : ℚ
deriving DecidableEq

instance : Add Vec3 := ⟨fun a b => ⟨a.x + b.x, a.y + b.y, a.z + b.z⟩⟩

instance : Sub Vec3 := ⟨fun a b => ⟨a.x - b.x, a.y - b.y, a.z - b.z⟩⟩

/-- THREE.Vector3.multiplyScalar. -/
def Vec3.scale (k : ℚ) (v : Vec3) : Vec3 := ⟨k * v.x, k * v.y, k * v.z⟩

/-- THREE.Vector3.lerpVectors: this = v1 + (v2 - v1) * alpha, componentwise. -/
def lerpVectors (a b : Vec3) (t : ℚ) : Vec3 :=
  ⟨a.x + (b.x - a.x) * t, a.y + (b.y - a.y) * t, a.z + (b.z - a.z) * t⟩

/-- ViewPose: a camera position plus the orbit target it looks at. -/
structure ViewPose where
  position : Vec3
  target : Vec3
deriving DecidableEq

/-- Material slot of a scene object.  hasEmissive models the presence of
an emissive slot, highlighted models emissive = HIGHLIGHT_COLOR with
emissiveIntensity 0.6 (as opposed to black with intensity 0), cloned
models userData._cloned. -/
structure Material where
  hasEmissive : Bool
  highlighted : Bool
  cloned : Bool
deriving DecidableEq

/-- A node of the externally loaded scene graph: uuid, name, mesh flag,
world-space bounding box corners (as computed by Box3.setFromObject),
and an optional material slot. -/
structure Obj where
  uuid : Nat
  name : String
  isMesh : Bool
  bboxMin : Vec3
  bboxMax : Vec3
  material : Option Material
deriving DecidableEq

/-- Box3.getCenter after setFromObject: midpoint of the bounding box. -/
def boxCenter (m : Obj) : Vec3 := Vec3.scale (1/2) (m.bboxMin + m.bboxMax)

/-- One entry of the ordered intersection list returned by
raycaster.intersectObject(scene, true). -/
structure Intersection where
  object : Obj
  distance : ℚ
deriving DecidableEq

/-- The bounding client rect of the render surface (gl.domElement). -/
structure Rect where
  left : ℚ
  top : ℚ
  width : ℚ
  height : ℚ
deriving DecidableEq

/-- Fixed transition duration in milliseconds (App.jsx line 115). -/
def duration : ℚ := 600

/-- The cubic ease-in-out of App.jsx line 118, exactly as the code
writes it: t < 0.5 then 4*t*t*t else 1 - Math.pow(-2*t+2, 3)/2. -/
def easeInOut (t : ℚ) : ℚ :=
  if t < 1/2 then 4 * t * t * t else 1 - ((-2) * t + 2)^3 / 2

/-- The easing formula exactly as the specification words it
(4 t cubed below one half, 1 - (-2t+2) cubed over 2 above), kept as a
separate definition so the code easing can be compared against it. -/
def specEase (t : ℚ) : ℚ :=
  if t < 1/2 then 4 * t^3 else 1 - ((-2) * t + 2)^3 / 2

/-- An in-flight camera transition: the captured start pose, the
computed end pose and the time the effect installed it. -/
structure TransitionRequest where
  startPos : Vec3
  startTarget : Vec3
  endPos : Vec3
  endTarget : Vec3
  startTime : ℚ
deriving DecidableEq

/-- The live camera state: camera.position, controls.target, and the
currently scheduled animation callback (none when no transition is in
flight or the last frame reached t = 1 and did not reschedule). -/
structure CamState where
  camPos : Vec3
  ctrlTarget : Vec3
  active : Option TransitionRequest
deriving DecidableEq

/-- One animation frame of CameraFocus (App.jsx lines 121-133): clamp
the elapsed fraction at 1, ease it, lerp position and target from the
request, and reschedule only while t < 1. -/
def tick (s : CamState) (now : ℚ) : CamState :=
  match s.active with
  | none => s
  | some tr =>
    let t := min ((now - tr.startTime) / duration) 1
    let eased := easeInOut t
    { camPos := lerpVectors tr.startPos tr.endPos eased
      ctrlTarget := lerpVectors tr.startTarget tr.endTarget eased
      active := if t < 1 then some tr else none }

/-- The body of the CameraFocus effect (App.jsx lines 90-135): bail out
when neither a selection nor a reset request is present, capture the
current camera position and orbit target as the start pose, take the
end pose from the reset request when present and otherwise from the
selected mesh bounding-box center plus the current offset, and install
the new request (replacing, hence cancelling, any previous one). -/
def runFocusEffect (s : CamState) (rv : Option ViewPose) (sm : Option Obj)
    (now : ℚ) : CamState :=
  if rv = none ∧ sm = none then s
  else
    match rv, sm with
    | some v, _ =>
      { s with active := some ⟨s.camPos, s.ctrlTarget, v.position, v.target, now⟩ }
    | none, some m =>
      let c := boxCenter m
      { s with active := some ⟨s.camPos, s.ctrlTarget, c + (s.camPos - s.ctrlTarget), c, now⟩ }
    | none, none => s

/-- The start pose recorded in the currently installed request. -/
def startPoseOf (s : CamState) : Option ViewPose :=
  s.active.map (fun tr => ⟨tr.startPos, tr.startTarget⟩)

/-- The end pose recorded in the currently installed request. -/
def endPoseOf (s : CamState) : Option ViewPose :=
  s.active.map (fun tr => ⟨tr.endPos, tr.endTarget⟩)

/-- The fixed ordered offset sample list of ScenePicker
(App.jsx lines 153-163), in device-independent pixels. -/
def offsets : List (ℤ × ℤ) :=
  [(0, 0), (6, 0), (-6, 0), (0, 6), (0, -6), (8, 8), (-8, 8), (8, -8), (-8, -8)]

/-- Max-norm radius of an offset sample. -/
def cheb (o : ℤ × ℤ) : ℕ := max o.1.natAbs o.2.natAbs

/-- One offset sample of handlePointerDown (App.jsx lines 171-176):
normalize the offset pointer position to [-1, 1], cast the ray through
the host raycaster, and keep the first mesh among the ordered
intersections. -/
def sampleHit (r : ℚ → ℚ → List Intersection) (rect : Rect)
    (baseX baseY : ℚ) (o : ℤ × ℤ) : Option Intersection :=
  let x := ((baseX + (o.1 : ℚ)) / rect.width) * 2 - 1
  let y := -(((baseY + (o.2 : ℚ)) / rect.height) * 2 - 1)
  (r x y).find? (fun i => i.object.isMesh)

/-- First-hit scan over the sample list, also counting how many samples
were evaluated before stopping: the loop of App.jsx lines 171-181
returns on the first sample with a mesh hit, so later samples are never
evaluated. -/
def firstHitScan {α β : Type} (f : α → Option β) : List α → Option β × Nat
  | [] => (none, 0)
  | o :: rest =>
    match f o with
    | some h => (some h, 1)
    | none =>
      let r := firstHitScan f rest
      (r.1, r.2 + 1)

/-- The pick result of one pointer-down: first offset sample whose ray
hits a mesh. -/
def pickResult (r : ℚ → ℚ → List Intersection) (rect : Rect)
    (clientX clientY : ℚ) : Option Intersection :=
  (firstHitScan (sampleHit r rect (clientX - rect.left) (clientY - rect.top)) offsets).1

/-- How many offset samples the pointer-down handler evaluated. -/
def pickSamples (r : ℚ → ℚ → List Intersection) (rect : Rect)
    (clientX clientY : ℚ) : Nat :=
  (firstHitScan (sampleHit r rect (clientX - rect.left) (clientY - rect.top)) offsets).2

/-- Outcome of a pointer-down against the ScenePicker: noop when no
scene is present (the effect attaches no listener, App.jsx line 151),
select with the hit object and the event, or miss. -/
inductive PickOutcome
  | noop
  | select (o : Obj) (clientX clientY : ℚ)
  | miss
deriving DecidableEq

/-- Pointer-down dispatch of ScenePicker: with an absent scene nothing
is attached and nothing happens; otherwise the first mesh hit is
reported through onSelect and a full miss through onMiss. -/
def pickDispatch (scene : Option (ℚ → ℚ → List Intersection)) (rect : Rect)
    (clientX clientY : ℚ) : PickOutcome :=
  match scene with
  | none => PickOutcome.noop
  | some r =>
    match pickResult r rect clientX clientY with
    | some hit => PickOutcome.select hit.object clientX clientY
    | none => PickOutcome.miss

/-- Normalized device x coordinate of HoverProbe (App.jsx line 203). -/
def ndcX (rect : Rect) (px : ℚ) : ℚ := ((px - rect.left) / rect.width) * 2 - 1

/-- Normalized device y coordinate of HoverProbe (App.jsx line 204). -/
def ndcY (rect : Rect) (py : ℚ) : ℚ := -(((py - rect.top) / rect.height) * 2 - 1)

/-- A pointer event relevant to the hover probe. -/
inductive PointerEv
  | move (clientX clientY : ℚ)
  | leave

/-- What the hover probe reports back to the App. -/
inductive HoverOutcome
  | inactive
  | hover (o : Obj) (x y : ℚ)
  | leave
deriving DecidableEq

/-- The pointer-move handler of HoverProbe (App.jsx lines 201-213):
exactly one ray (the second component counts rays cast), first mesh of
the ordered intersections on a hit, leave on a miss. -/
def handleHoverMove (r : ℚ → ℚ → List Intersection) (rect : Rect)
    (clientX clientY : ℚ) : HoverOutcome × Nat :=
  match (r (ndcX rect clientX) (ndcY rect clientY)).find? (fun i => i.object.isMesh) with
  | some hit => (HoverOutcome.hover hit.object clientX clientY, 1)
  | none => (HoverOutcome.leave, 1)

/-- HoverProbe dispatch: no listeners unless a scene is present and
diagnostics mode is enabled (App.jsx line 199); pointer-leave always
reports leave. -/
def hoverProbe (scene : Option (ℚ → ℚ → List Intersection)) (enabled : Bool)
    (rect : Rect) (ev : PointerEv) : HoverOutcome × Nat :=
  match scene, enabled with
  | some r, true =>
    match ev with
    | PointerEv.move cx cy => handleHoverMove r rect cx cy
    | PointerEv.leave => (HoverOutcome.leave, 0)
  | _, _ => (HoverOutcome.inactive, 0)

/-- The per-material mutation of the Model highlight effect
(App.jsx lines 50-57): clone once lazily, then, when an emissive slot
exists, set the emissive state according to whether this mesh is the
selection. -/
def applyMat (isSelected : Bool) (mat : Material) : Material :=
  let m1 := if mat.cloned then mat else { mat with cloned := true }
  if m1.hasEmissive then { m1 with highlighted := isSelected } else m1

/-- The per-node step of the highlight traversal (App.jsx lines 48-58):
non-meshes and nodes without a material are skipped. -/
def updObj (sel : Option Nat) (o : Obj) : Obj :=
  if o.isMesh then
    match o.material with
    | some mat => { o with material := some (applyMat (decide (some o.uuid = sel)) mat) }
    | none => o
  else o

/-- One run of the Model highlight effect over the whole scene. -/
def highlightPass (sel : Option Nat) (l : List Obj) : List Obj :=
  l.map (updObj sel)

/-- The highlight effect re-applied after each selection change of a
sequence. -/
def runHighlights (sels : List (Option Nat)) (l : List Obj) : List Obj :=
  sels.foldl (fun acc sel => highlightPass sel acc) l

/-- Whether a node currently shows the selection highlight. -/
def isHighlighted (o : Obj) : Bool :=
  o.isMesh &&
    match o.material with
    | some mat => mat.hasEmissive && mat.highlighted
    | none => false

/-- Whether a node has a material with an emissive slot. -/
def matHasEmissive (o : Obj) : Bool :=
  match o.material with
  | some mat => mat.hasEmissive
  | none => false

/-- The display-name fallback mesh.name applied throughout App.jsx. -/
def displayName (m : Obj) : String :=
  if m.name = "" then "Unnamed mesh" else m.name

/-- The hover label state of App. -/
structure HoverInfo where
  name : String
  hx : ℚ
  hy : ℚ
  visible : Bool
deriving DecidableEq

/-- The React state of the App component that the selection, reset and
hover logic touches (App.jsx lines 233-252).  Loading status fields and
the mesh-name debug list are orthogonal to every claim and omitted. -/
structure AppState where
  selectedId : Option Nat
  selectedName : String
  selectedMesh : Option Obj
  showInstructions : Bool
  debugEnabled : Bool
  hoverInfo : HoverInfo
  resetKey : Nat
  resetView : Option ViewPose
deriving DecidableEq

/-- The default pose captured at startup (App.jsx lines 247-250). -/
def defaultView : ViewPose := ⟨⟨0, 6/5, 3⟩, ⟨0, 0, 0⟩⟩

/-- Initial App state per the useState initializers. -/
def initialState : AppState :=
  { selectedId := none, selectedName := "", selectedMesh := none,
    showInstructions := true, debugEnabled := false,
    hoverInfo := ⟨"", 0, 0, false⟩, resetKey := 0, resetView := none }

/-- The callback-level events that mutate the App state: the ScenePicker
onSelect and onMiss callbacks, the Home and Clear selection buttons, the
debug toggle, and the HoverProbe callbacks. -/
inductive Ev
  | select (m : Obj) (clientX clientY : ℚ)
  | miss
  | home
  | clear
  | debugToggle
  | hoverHit (m : Obj) (x y : ℚ)
  | hoverLeave

/-- The App state update performed by each handler (App.jsx lines
300-320, 349-358, 365, 325-333, 434-438). -/
def step (s : AppState) (e : Ev) : AppState :=
  match e with
  | Ev.select m cx cy =>
    { s with
        selectedId := some m.uuid
        selectedName := displayName m
        selectedMesh := some m
        resetView := none
        showInstructions := false
        hoverInfo := if s.debugEnabled then ⟨displayName m, cx, cy, true⟩ else s.hoverInfo }
  | Ev.miss =>
    { s with
        selectedId := none
        selectedName := ""
        selectedMesh := none
        showInstructions := false
        hoverInfo := { s.hoverInfo with visible := false } }
  | Ev.home =>
    { s with
        selectedId := none
        selectedName := ""
        selectedMesh := none
        resetView := some defaultView
        resetKey := s.resetKey + 1 }
  | Ev.clear =>
    { s with
        selectedId := none
        selectedName := ""
        selectedMesh := none }
  | Ev.debugToggle => { s with debugEnabled := !s.debugEnabled }
  | Ev.hoverHit m hx hy => { s with hoverInfo := ⟨displayName m, hx, hy, true⟩ }
  | Ev.hoverLeave => { s with hoverInfo := { s.hoverInfo with visible := false } }

/-- How the App applies a pointer-down outcome: noop touches nothing
(no listener was attached). -/
def applyPickOutcome (s : AppState) (p : PickOutcome) : AppState :=
  match p with
  | PickOutcome.noop => s
  | PickOutcome.select o cx cy => step s (Ev.select o cx cy)
  | PickOutcome.miss => step s Ev.miss

/-- How the App applies a hover outcome: inactive touches nothing. -/
def applyHoverOutcome (s : AppState) (h : HoverOutcome) : AppState :=
  match h with
  | HoverOutcome.inactive => s
  | HoverOutcome.hover o hx hy => step s (Ev.hoverHit o hx hy)
  | HoverOutcome.leave => step s Ev.hoverLeave

/-- The dependency array of the CameraFocus effect (App.jsx line 142)
restricted to its mutable entries: camera and controlsRef are stable
object references for the life of the Canvas, so only resetKey,
resetView and selectedMesh can differ between renders. -/
def focusDeps (s : AppState) : Nat × Option ViewPose × Option Obj :=
  (s.resetKey, s.resetView, s.selectedMesh)

/-- Whether moving from state pre to state post makes the CameraFocus
effect run its body and install a new transition: the effect re-runs
only when a dependency changed, and its body bails out unless a
selected mesh or a reset request is present (App.jsx lines 91-92).
The controls handle is assumed mounted. -/
def FocusFires (pre post : AppState) : Prop :=
  focusDeps pre ≠ focusDeps post ∧
    (post.selectedMesh.isSome = true ∨ post.resetView.isSome = true)

instance (pre post : AppState) : Decidable (FocusFires pre post) :=
  inferInstanceAs (Decidable (focusDeps pre ≠ focusDeps post ∧
    (post.selectedMesh.isSome = true ∨ post.resetView.isSome = true)))

/-- In every reachable state a populated selection and a pending reset
request are mutually exclusive. -/
def SelResetInv (s : AppState) : Prop :=
  ¬ (s.selectedMesh.isSome = true ∧ s.resetView.isSome = true)

/-- Concrete molar mesh used as a test fixture. -/
def mA : Obj := ⟨1, "Molar", true, ⟨0, 0, 0⟩, ⟨2, 2, 2⟩, some ⟨true, false, false⟩⟩

/-- Concrete incisor mesh fixture, initially highlighted. -/
def mB : Obj := ⟨2, "Incisor", true, ⟨0, 0, 0⟩, ⟨1, 1, 1⟩, some ⟨true, true, false⟩⟩

/-- Transition fixture from the origin pose to a distinct pose. -/
def trW : TransitionRequest := ⟨⟨0, 0, 0⟩, ⟨0, 0, 0⟩, ⟨1, 0, 0⟩, ⟨0, 1, 0⟩, 0⟩

/-- Camera fixture with trW in flight. -/
def csW : CamState := ⟨⟨0, 0, 0⟩, ⟨0, 0, 0⟩, some trW⟩

/-- Idle camera fixture. -/
def csIdle : CamState := ⟨⟨3, 3, 3⟩, ⟨1, 1, 1⟩, none⟩

/-- Render-surface rect fixture. -/
def rectW : Rect := ⟨0, 0, 2, 2⟩

/-- Raycaster fixture: a single mesh hit exactly on the vertical line
x = 5 of normalized device coordinates. -/
def rayW : ℚ → ℚ → List Intersection := fun x _ => if x = 5 then [⟨mA, 1⟩] else []

lemma lerpVectors_one (a b : Vec3) : lerpVectors a b 1 = b := by
  cases a; cases b
  simp only [lerpVectors, Vec3.mk.injEq]
  refine ⟨by ring, by ring, by ring⟩

lemma easeInOut_one : easeInOut 1 = 1 := by norm_num [easeInOut]

lemma startPoseOf_runFocusEffect (cs : CamState) (rv : Option ViewPose)
    (m : Obj) (now : ℚ) :
    startPoseOf (runFocusEffect cs rv (some m) now) = some ⟨cs.camPos, cs.ctrlTarget⟩ := by
  cases rv <;> simp [runFocusEffect, startPoseOf]

lemma firstHitScan_append {α β : Type} (f : α → Option β) (pre post : List α)
    (o : α) (h : β) (hpre : ∀ q ∈ pre, f q = none) (hhit : f o = some h) :
    firstHitScan f (pre ++ o :: post) = (some h, pre.length + 1) := by
  induction pre with
  | nil => simp [firstHitScan, hhit]
  | cons a t ih =>
    have ha : f a = none := hpre a (List.mem_cons_self a t)
    have ht : ∀ q ∈ t, f q = none := fun q hq => hpre q (List.mem_cons_of_mem a hq)
    simp [firstHitScan, ha, ih ht]

lemma firstHitScan_fst_none_iff {α β : Type} (f : α → Option β) (l : List α) :
    (firstHitScan f l).1 = none ↔ ∀ q ∈ l, f q = none := by
  induction l with
  | nil => simp [firstHitScan]
  | cons a t ih =>
    cases ha : f a with
    | some b => simp [firstHitScan, ha]
    | none => simp [firstHitScan, ha, ih]

lemma updObj_uuid (sel : Option Nat) (o : Obj) : (updObj sel o).uuid = o.uuid := by
  rcases o with ⟨u, n, im, bmin, bmax, mat⟩
  cases im <;> cases mat <;> simp [updObj]

lemma isHighlighted_updObj (sel : Option Nat) (o : Obj) :
    isHighlighted (updObj sel o) =
      (o.isMesh && matHasEmissive o && decide (some o.uuid = sel)) := by
  rcases o with ⟨u, n, im, bmin, bmax, mat⟩
  cases im
  · simp [updObj, isHighlighted]
  · cases mat with
    | none => simp [updObj, isHighlighted, matHasEmissive]
    | some m =>
      rcases m with ⟨he, hl, cl⟩
      cases he <;> cases cl <;>
        simp [updObj, isHighlighted, matHasEmissive, applyMat]

lemma highlightPass_map_uuid (sel : Option Nat) (l : List Obj) :
    (highlightPass sel l).map Obj.uuid = l.map Obj.uuid := by
  unfold highlightPass
  rw [List.map_map]
  exact List.map_congr_left (fun o _ => updObj_uuid sel o)

lemma filter_length_le_one (v : Nat) (l : List Obj)
    (hn : (l.map Obj.uuid).Nodup)
    (hall : ∀ o ∈ l, isHighlighted o = true → o.uuid = v) :
    (l.filter isHighlighted).length ≤ 1 := by
  induction l with
  | nil => simp
  | cons a t ih =>
    rw [List.map_cons, List.nodup_cons] at hn
    by_cases hpa : isHighlighted a = true
    · rw [List.filter_cons_of_pos hpa]
      have hta : t.filter isHighlighted = [] := by
        rw [List.filter_eq_nil_iff]
        intro q hq hpq
        have h1 : q.uuid = v := hall q (List.mem_cons_of_mem a hq) hpq
        have h2 : a.uuid = v := hall a (List.mem_cons_self a t) hpa
        exact hn.1 (by rw [h2, ← h1]; exact List.mem_map_of_mem Obj.uuid hq)
      rw [hta]
      simp
    · rw [List.filter_cons_of_neg (by simpa using hpa)]
      exact ih hn.2 (fun o ho hpo => hall o (List.mem_cons_of_mem a ho) hpo)

lemma highlightPass_atMostOne (sel : Option Nat) (l : List Obj)
    (hn : (l.map Obj.uuid).Nodup) :
    ((highlightPass sel l).filter isHighlighted).length ≤ 1 := by
  cases sel with
  | none =>
    have hnil : (highlightPass none l).filter isHighlighted = [] := by
      rw [List.filter_eq_nil_iff]
      intro o ho
      rcases List.mem_map.mp ho with ⟨q, hq, rfl⟩
      simp [isHighlighted_updObj]
    rw [hnil]
    simp
  | some v =>
    apply filter_length_le_one v
    · rw [highlightPass_map_uuid]
      exact hn
    · intro o ho hho
      rcases List.mem_map.mp ho with ⟨q, hq, rfl⟩
      rw [isHighlighted_updObj] at hho
      simp only [Bool.and_eq_true, decide_eq_true_eq] at hho
      rw [updObj_uuid]
      exact Option.some.inj hho.2

lemma runHighlights_atMostOne : ∀ (sels : List (Option Nat)) (l : List Obj),
    (l.map Obj.uuid).Nodup → sels ≠ [] →
    ((runHighlights sels l).filter isHighlighted).length ≤ 1
  | [], _, _, hne => absurd rfl hne
  | [a], l, hn, _ => highlightPass_atMostOne a l hn
  | a :: b :: u, l, hn, _ =>
    runHighlights_atMostOne (b :: u) (highlightPass a l)
      (by rw [highlightPass_map_uuid]; exact hn) (by simp)

lemma selResetInv_step (s : AppState) (e : Ev) (h : SelResetInv s) :
    SelResetInv (step s e) := by
  cases e <;> simp [SelResetInv, step] at h ⊢ <;> tauto

lemma selResetInv_run (evs : List Ev) (s : AppState) (h : SelResetInv s) :
    SelResetInv (evs.foldl step s) := by
  induction evs generalizing s with
  | nil => exact h
  | cons e t ih => exact ih _ (selResetInv_step s e h)


/-- C4: for every new non-empty selection the computed transition end
pose has target equal to the bounding-volume center of the selected
surface and position equal to that center plus the camera offset from
the current orbit target at transition start, so the viewing distance
and angle are preserved. -/
theorem selection_end_pose_keeps_offset (cs : CamState) (m : Obj) (now : ℚ) :
    startPoseOf (runFocusEffect cs none (some m) now) =
      some ⟨cs.camPos, cs.ctrlTarget⟩ ∧
    endPoseOf (runFocusEffect cs none (some m) now) =
      some ⟨boxCenter m + (cs.camPos - cs.ctrlTarget), boxCenter m⟩ := by
  constructor <;> simp [runFocusEffect, startPoseOf, endPoseOf]

/-- C5: transitions have the fixed duration 600 ms, each frame places
the live pose at the linear interpolation of start and end pose at the
eased clamped elapsed fraction, the code easing agrees with the eased
formula of the specification, the frame callback reschedules exactly
while t is below 1, and once the duration has elapsed the live pose
equals the end pose exactly. -/
theorem transition_interpolation (s : CamState) (tr : TransitionRequest)
    (now u : ℚ) (hact : s.active = some tr) :
    duration = 600 ∧
    easeInOut u = specEase u ∧
    (tick s now).camPos = lerpVectors tr.startPos tr.endPos
      (easeInOut (min ((now - tr.startTime) / duration) 1)) ∧
    (tick s now).ctrlTarget = lerpVectors tr.startTarget tr.endTarget
      (easeInOut (min ((now - tr.startTime) / duration) 1)) ∧
    ((tick s now).active = none ↔ tr.startTime + duration ≤ now) ∧
    (tr.startTime + duration ≤ now →
      (tick s now).camPos = tr.endPos ∧ (tick s now).ctrlTarget = tr.endTarget) := by
  rcases s with ⟨cp, ct, a⟩
  obtain rfl : a = some tr := hact
  have heq : easeInOut u = specEase u := by
    unfold easeInOut specEase
    split <;> ring
  refine ⟨rfl, heq, by simp [tick], by simp [tick], ?_, ?_⟩
  · have h1 : min ((now - tr.startTime) / duration) 1 < 1 ↔
        ¬ (tr.startTime + duration ≤ now) := by
      rw [duration]
      constructor
      · intro h hc
        rcases min_lt_iff.mp h with h2 | h2
        · rw [div_lt_one (by norm_num : (0:ℚ) < 600)] at h2
          linarith
        · exact absurd h2 (lt_irrefl 1)
      · intro hc
        apply min_lt_iff.mpr
        left
        rw [div_lt_one (by norm_num : (0:ℚ) < 600)]
        push_neg at hc
        linarith
    simp only [tick]
    by_cases hlt : min ((now - tr.startTime) / duration) 1 < 1
    · simp only [if_pos hlt]
      simp only [h1] at hlt
      simp [hlt]
    · simp only [if_neg hlt]
      simp only [h1, not_not] at hlt
      simp [hlt]
  · intro hdone
    have hmin : min ((now - tr.startTime) / duration) 1 = 1 := by
      apply min_eq_right
      rw [duration, le_div_iff₀ (by norm_num : (0:ℚ) < 600)]
      rw [duration] at hdone
      linarith
    constructor <;> simp [tick, hmin, easeInOut_one, lerpVectors_one]

/-- C5 witness: a transition from the pose of trW ticked at time 600 has
reached its end pose exactly and the frame loop has stopped. -/
theorem transition_interpolation_witness :
    (tick csW 600).camPos = trW.endPos ∧ (tick csW 600).active = none := by
  have h := transition_interpolation csW trW 600 0 rfl
  exact ⟨(h.2.2.2.2.2 (by norm_num [trW, duration])).1,
    h.2.2.2.2.1.mpr (by norm_num [trW, duration])⟩

/-- C2: starting a new transition while transition A is in flight at
fraction t with 0 < t < 1 replaces A and captures the current
interpolated pose of A at eased t as the start pose of the new request,
not the original start pose of A. -/
theorem transition_continuity (s : CamState) (trA : TransitionRequest)
    (now1 now2 : ℚ) (rv : Option ViewPose) (sm : Obj)
    (hact : s.active = some trA)
    (h0 : 0 < (now1 - trA.startTime) / duration)
    (h1 : (now1 - trA.startTime) / duration < 1) :
    startPoseOf (runFocusEffect (tick s now1) rv (some sm) now2) =
      some ⟨lerpVectors trA.startPos trA.endPos
              (easeInOut ((now1 - trA.startTime) / duration)),
            lerpVectors trA.startTarget trA.endTarget
              (easeInOut ((now1 - trA.startTime) / duration))⟩ := by
  rcases s with ⟨cp, ct, a⟩
  obtain rfl : a = some trA := hact
  have hmin : min ((now1 - trA.startTime) / duration) 1 =
      (now1 - trA.startTime) / duration := min_eq_left h1.le
  rw [startPoseOf_runFocusEffect]
  simp [tick, hmin]

/-- C2 witness: superseding trW halfway through, the new request starts
from the halfway interpolated pose. -/
theorem transition_continuity_witness :
    startPoseOf (runFocusEffect (tick csW 300) none (some mA) 400) =
      some ⟨lerpVectors trW.startPos trW.endPos (easeInOut ((300 - trW.startTime) / duration)),
            lerpVectors trW.startTarget trW.endTarget (easeInOut ((300 - trW.startTime) / duration))⟩ :=
  transition_continuity csW trW 300 400 none mA rfl
    (by norm_num [trW, duration]) (by norm_num [trW, duration])

/-- C9: with the scene root absent neither picking nor hovering attaches
a handler, so a pointer-down or pointer-move is a defined no-op miss
that changes nothing and produces no hit. -/
theorem absent_scene_noop (rect : Rect) (cx cy : ℚ) (b : Bool)
    (ev : PointerEv) (s : AppState) :
    pickDispatch none rect cx cy = PickOutcome.noop ∧
    applyPickOutcome s (pickDispatch none rect cx cy) = s ∧
    hoverProbe none b rect ev = (HoverOutcome.inactive, 0) ∧
    applyHoverOutcome s (hoverProbe none b rect ev).1 = s := by
  refine ⟨rfl, rfl, ?_, ?_⟩ <;> cases b <;> rfl

/-- C8: the hover probe runs only when diagnostics mode is enabled,
casts exactly one ray per pointer-move with no offset fallback, reports
the hovered surface and the screen position on a hit and a leave signal
on a miss or on pointer-leave, and never changes the selection state. -/
theorem hover_probe_behavior (r : ℚ → ℚ → List Intersection) (rect : Rect)
    (cx cy : ℚ) (ev : PointerEv) (s : AppState) (h : HoverOutcome) :
    hoverProbe (some r) false rect ev = (HoverOutcome.inactive, 0) ∧
    (hoverProbe (some r) true rect (PointerEv.move cx cy)).2 = 1 ∧
    (hoverProbe (some r) true rect (PointerEv.move cx cy)).1 =
      (match (r (ndcX rect cx) (ndcY rect cy)).find? (fun i => i.object.isMesh) with
       | some hit => HoverOutcome.hover hit.object cx cy
       | none => HoverOutcome.leave) ∧
    (hoverProbe (some r) true rect PointerEv.leave).1 = HoverOutcome.leave ∧
    (applyHoverOutcome s h).selectedId = s.selectedId ∧
    (applyHoverOutcome s h).selectedName = s.selectedName ∧
    (applyHoverOutcome s h).selectedMesh = s.selectedMesh ∧
    (applyHoverOutcome s h).resetView = s.resetView ∧
    (applyHoverOutcome s h).resetKey = s.resetKey := by
  refine ⟨rfl, ?_, ?_, rfl, ?_, ?_, ?_, ?_, ?_⟩
  · show (handleHoverMove r rect cx cy).2 = 1
    unfold handleHoverMove
    cases (r (ndcX rect cx) (ndcY rect cy)).find? (fun i => i.object.isMesh) <;> rfl
  · show (handleHoverMove r rect cx cy).1 = _
    unfold handleHoverMove
    cases (r (ndcX rect cx) (ndcY rect cy)).find? (fun i => i.object.isMesh) <;> rfl
  all_goals cases h <;> rfl

/-- C1, corrected: every pick hit replaces the selection with the hit
surface and clears any pending reset request, but a new camera
transition request is produced precisely when the CameraFocus effect
dependencies change, that is when the hit surface differs from the
current selection or a reset request was pending; re-selecting the
currently selected surface with no pending reset produces no new
transition. -/
theorem pick_selection_transition (s : AppState) (m : Obj) (cx cy : ℚ) :
    (step s (Ev.select m cx cy)).selectedId = some m.uuid ∧
    (step s (Ev.select m cx cy)).selectedName = displayName m ∧
    (step s (Ev.select m cx cy)).selectedMesh = some m ∧
    (step s (Ev.select m cx cy)).resetView = none ∧
    (FocusFires s (step s (Ev.select m cx cy)) ↔
      (s.selectedMesh ≠ some m ∨ s.resetView ≠ none)) := by
  refine ⟨rfl, rfl, rfl, rfl, ?_⟩
  show (((s.resetKey, s.resetView, s.selectedMesh) :
      ℕ × Option ViewPose × Option Obj) ≠ (s.resetKey, none, some m) ∧
      ((some m).isSome = true ∨ (none : Option ViewPose).isSome = true)) ↔ _
  constructor
  · rintro ⟨hne, -⟩
    by_contra hc
    push_neg at hc
    exact hne (by rw [hc.1, hc.2])
  · rintro (hc | hc) <;> refine ⟨?_, Or.inl rfl⟩
    · intro hp
      exact hc (congrArg (fun p => p.2.2) hp)
    · intro hp
      exact hc (congrArg (fun p => p.2.1) hp)

/-- C1 counterexample: re-selecting the already selected molar does not
change any CameraFocus dependency, so no new transition request is
produced, contradicting the claim that every hit re-triggers one. -/
theorem reselect_no_transition_counterexample :
    (step initialState (Ev.select mA 10 10)).selectedMesh = some mA ∧
    ¬ FocusFires (step initialState (Ev.select mA 10 10))
        (step (step initialState (Ev.select mA 10 10)) (Ev.select mA 10 10)) := by
  decide

/-- C7: from any state with a populated selection, the Home command
clears the selection to empty, installs a reset request holding the
immutable default pose, fires the CameraFocus effect, and the computed
transition end pose equals the default pose, whatever was selected. -/
theorem reset_returns_default_pose (s : AppState) (cs : CamState) (now : ℚ)
    (hsel : s.selectedMesh ≠ none) :
    (step s Ev.home).selectedMesh = none ∧
    (step s Ev.home).selectedId = none ∧
    (step s Ev.home).selectedName = "" ∧
    (step s Ev.home).resetView = some defaultView ∧
    FocusFires s (step s Ev.home) ∧
    endPoseOf (runFocusEffect cs (step s Ev.home).resetView
      (step s Ev.home).selectedMesh now) = some defaultView := by
  refine ⟨rfl, rfl, rfl, rfl, ⟨?_, ?_⟩, ?_⟩
  · intro hp
    have : s.resetKey = s.resetKey + 1 := congrArg Prod.fst hp
    omega
  · right
    rfl
  · show endPoseOf (runFocusEffect cs (some defaultView) none now) = some defaultView
    simp [runFocusEffect, endPoseOf]

/-- C7 witness: with the molar selected, Home clears the selection and
the scheduled end pose is the default pose. -/
theorem reset_returns_default_pose_witness :
    (step (step initialState (Ev.select mA 10 10)) Ev.home).selectedMesh = none ∧
    endPoseOf (runFocusEffect csIdle
      (step (step initialState (Ev.select mA 10 10)) Ev.home).resetView
      (step (step initialState (Ev.select mA 10 10)) Ev.home).selectedMesh 0) =
      some defaultView := by
  have h := reset_returns_default_pose (step initialState (Ev.select mA 10 10))
    csIdle 0 (by decide)
  exact ⟨h.1, h.2.2.2.2.2⟩

/-- C10: in every state reachable from the initial state a populated
selection and a pending reset request are mutually exclusive; a pick
hit clears any pending reset request and the Home command clears the
selection while installing its reset request. -/
theorem selection_reset_exclusive (evs : List Ev) (s : AppState) (m : Obj)
    (cx cy : ℚ) :
    SelResetInv (evs.foldl step initialState) ∧
    (step s (Ev.select m cx cy)).resetView = none ∧
    (step s Ev.home).selectedMesh = none ∧
    (step s Ev.home).resetView = some defaultView :=
  ⟨selResetInv_run evs initialState (by simp [SelResetInv, initialState]),
   rfl, rfl, rfl⟩

/-- C3: the picker tests the fixed ordered list of 9 offset samples
(the exact pointer first, then the axis-aligned offsets of max-norm
radius 6, then the diagonal offsets of max-norm radius 8), stops at the
first offset whose ray hits a pickable surface so that no later sample
is evaluated, and reports a miss exactly when all 9 offsets fail. -/
theorem pick_offset_fallback (r r2 : ℚ → ℚ → List Intersection)
    (rect rect2 : Rect) (cx cy cx2 cy2 : ℚ)
    (pre post post2 : List (ℤ × ℤ)) (o : ℤ × ℤ) (h : Intersection)
    (hsplit : offsets = pre ++ o :: post)
    (hpre : pre.all
      (fun q => (sampleHit r rect (cx - rect.left) (cy - rect.top) q).isNone) = true)
    (hhit : sampleHit r rect (cx - rect.left) (cy - rect.top) o = some h) :
    offsets = [(0, 0), (6, 0), (-6, 0), (0, 6), (0, -6),
      (8, 8), (-8, 8), (8, -8), (-8, -8)] ∧
    offsets.length = 9 ∧
    offsets.map cheb = [0, 6, 6, 6, 6, 8, 8, 8, 8] ∧
    ((offsets.take 5).all (fun q => q.1 == 0 || q.2 == 0)) = true ∧
    ((offsets.drop 5).all (fun q => q.1.natAbs == 8 && q.2.natAbs == 8)) = true ∧
    pickResult r rect cx cy = some h ∧
    pickSamples r rect cx cy = pre.length + 1 ∧
    firstHitScan (sampleHit r rect (cx - rect.left) (cy - rect.top))
      (pre ++ o :: post2) = (some h, pre.length + 1) ∧
    (pickResult r2 rect2 cx2 cy2 = none ↔
      (offsets.all (fun q =>
        (sampleHit r2 rect2 (cx2 - rect2.left) (cy2 - rect2.top) q).isNone)) = true) := by
  have hpre2 : ∀ q ∈ pre, sampleHit r rect (cx - rect.left) (cy - rect.top) q = none :=
    fun q hq => Option.isNone_iff_eq_none.mp (List.all_eq_true.mp hpre q hq)
  have hscan := firstHitScan_append
    (sampleHit r rect (cx - rect.left) (cy - rect.top)) pre post o h hpre2 hhit
  refine ⟨rfl, rfl, by decide, by decide, by decide, ?_, ?_, ?_, ?_⟩
  · unfold pickResult
    rw [hsplit, hscan]
  · unfold pickSamples
    rw [hsplit, hscan]
  · exact firstHitScan_append
      (sampleHit r rect (cx - rect.left) (cy - rect.top)) pre post2 o h hpre2 hhit
  · unfold pickResult
    rw [firstHitScan_fst_none_iff, List.all_eq_true]
    constructor
    · intro hall q hq
      rw [Option.isNone_iff_eq_none]
      exact hall q hq
    · intro hall q hq
      exact Option.isNone_iff_eq_none.mp (hall q hq)

/-- C3 witness: with the fixture ray that only hits on the second
sample, the pick selects that hit after evaluating exactly 2 samples. -/
theorem pick_offset_fallback_witness :
    pickResult rayW rectW 0 1 = some ⟨mA, 1⟩ ∧
    pickSamples rayW rectW 0 1 = 2 := by
  have h := pick_offset_fallback rayW rayW rectW rectW 0 1 0 1
    [(0, 0)] [(-6, 0), (0, 6), (0, -6), (8, 8), (-8, 8), (8, -8), (-8, -8)] []
    (6, 0) ⟨mA, 1⟩ rfl
    (by norm_num [sampleHit, rayW, rectW, List.find?])
    (by norm_num [sampleHit, rayW, rectW, List.find?, mA])
  exact ⟨h.2.2.2.2.2.1, h.2.2.2.2.2.2.1⟩

/-- C6: with distinct surface identities, after any nonempty sequence of
select and clear operations the re-applied highlight effect leaves at
most one surface highlighted, and the per-surface update highlights a
mesh with an emissive material exactly when its identity equals the
current selection, so the prior selection loses its highlight and the
new one gains it. -/
theorem exclusive_highlight (l : List Obj) (sels : List (Option Nat))
    (sel : Option Nat) (o : Obj)
    (hn : (l.map Obj.uuid).Nodup) (hne : sels ≠ []) :
    ((runHighlights sels l).filter isHighlighted).length ≤ 1 ∧
    isHighlighted (updObj sel o) =
      (o.isMesh && matHasEmissive o && decide (some o.uuid = sel)) :=
  ⟨runHighlights_atMostOne sels l hn hne, isHighlighted_updObj sel o⟩

/-- C6 witness: starting from a scene in which mB is already
highlighted, selecting mA then mB leaves at most one highlight, the
deselected mA is not highlighted and the selected mB is. -/
theorem exclusive_highlight_witness :
    ((runHighlights [some 1, some 2] [mA, mB]).filter isHighlighted).length ≤ 1 ∧
    isHighlighted (updObj (some 2) mA) = false ∧
    isHighlighted (updObj (some 2) mB) = true := by
  have h1 := exclusive_highlight [mA, mB] [some 1, some 2] (some 2) mA
    (by decide) (by decide)
  have h2 := exclusive_highlight [mA, mB] [some 1, some 2] (some 2) mB
    (by decide) (by decide)
  refine ⟨h1.1, ?_, ?_⟩
  · rw [h1.2]
    decide
  · rw [h2.2]
    decide
